import Mathlib

/-!
Verification of the memory store and conversation context engine of
`chatgpt-mem` (files `src/main.py` and `src/utils.py`).

The development shallowly embeds the pure computational content of
`src/utils.py`: the timestamp codec (`datetime_to_string`,
`string_to_datetime`, `string_to_timestamp_in_microseconds`), the
conversation window builder (`_make_messages`), the importance rater's
reply parsing (`rate_importance`, Python's `int(...)` on strings), the
metadata store operations (`update_memory`, `add_memory`, `get_memories`),
and the time filter construction of `query_memory`.

External collaborators (the embedding gateway, the completion gateway and
the Pinecone index) are modelled by their data contracts: the completion
gateway's reply is threaded through as an explicit string parameter, the
vector index is modelled as a keyed metadata store (embedding vectors are
opaque to every claim and are omitted), and the Pinecone metadata filter
language fragment used by the code is given an explicit syntax and
semantics.  Strings are modelled as sequences of code points (Python's
`len` counts code points, as does Lean's `String.length`); the handful of
Python library routines involved (`strftime`/`strptime` on the two fixed
formats, `str.strip`, `int(str)`) are modelled on ASCII text, which covers
every string the program itself constructs.
-/

namespace ChatGptMem

/-! ### Decimal digit rendering and scanning

`strftime` renders each field of the canonical format zero padded to a
fixed width (`%Y` to 4 digits, `%m %d %H %M %S` to 2, `%f` to 6);
`encodeDigits w n` is that zero-padded `w`-digit rendering.
`strptime` scans each field greedily, up to the field's maximum digit
count, and then checks the field's range and the following separator;
`readDigits`/`parseNum` model that scan. -/

/-- Zero-padded decimal rendering of `n` with exactly `w` digits
(faithful for `n < 10^w`, which holds for every field of a valid
datetime). -/
def encodeDigits : Nat → Nat → List Char
  | 0, _ => []
  | w + 1, n => Nat.digitChar (n / 10 ^ w) :: encodeDigits w (n % 10 ^ w)

/-- Greedy decimal scan of at most `fuel` leading digits, returning the
accumulated value, the count of digits consumed, and the rest. -/
def readDigits : Nat → Nat → Nat → List Char → Nat × Nat × List Char
  | 0, acc, cnt, cs => (acc, cnt, cs)
  | _ + 1, acc, cnt, [] => (acc, cnt, [])
  | fuel + 1, acc, cnt, c :: cs =>
      if c.isDigit then readDigits fuel (acc * 10 + (c.toNat - 48)) (cnt + 1) cs
      else (acc, cnt, c :: cs)

/-- Scan a numeric field of at least `minD` and at most `maxD` digits
(as the `strptime` field regexes do). -/
def parseNum (minD maxD : Nat) (cs : List Char) : Option (Nat × Nat × List Char) :=
  let r := readDigits maxD 0 0 cs
  if minD ≤ r.2.1 then some (r.1, r.2.1, r.2.2) else none

/-- Consume one expected literal character. -/
def expectChar (ch : Char) : List Char → Option (List Char)
  | c :: cs => if c = ch then some cs else none
  | [] => none

/-! ### The timestamp codec

Models `datetime_to_string` / `string_to_datetime` /
`string_to_timestamp_in_microseconds` from `src/utils.py` together with
the Python `datetime` value class.  A Python `datetime` is a record of
calendar fields with `1 ≤ year ≤ 9999` and microsecond precision. -/

/-- A Python `datetime` value (naive, interpreted as UTC by this
program). -/
structure PyDateTime where
  year : Nat
  month : Nat
  day : Nat
  hour : Nat
  minute : Nat
  second : Nat
  microsecond : Nat
deriving DecidableEq, Repr

/-- Gregorian leap year test. -/
def isLeapYear (y : Nat) : Bool :=
  y % 4 = 0 && (y % 100 ≠ 0 || y % 400 = 0)

/-- Number of days in a month of a given year. -/
def daysInMonth (y m : Nat) : Nat :=
  if m = 2 then (if isLeapYear y then 29 else 28)
  else if m = 4 || m = 6 || m = 9 || m = 11 then 30
  else 31

/-- Range constraints enforced by the Python `datetime` constructor
(which `strptime` calls after scanning the fields). -/
def isValidDateTime (dt : PyDateTime) : Bool :=
  1 ≤ dt.year && dt.year ≤ 9999 &&
  1 ≤ dt.month && dt.month ≤ 12 &&
  1 ≤ dt.day && dt.day ≤ daysInMonth dt.year dt.month &&
  dt.hour ≤ 23 && dt.minute ≤ 59 && dt.second ≤ 59 &&
  dt.microsecond ≤ 999999

/-- Character sequence of the canonical rendering
`"%Y-%m-%dT%H:%M:%S.%f"` of a datetime. -/
def datetimeChars (dt : PyDateTime) : List Char :=
  encodeDigits 4 dt.year ++
    ('-' :: (encodeDigits 2 dt.month ++
      ('-' :: (encodeDigits 2 dt.day ++
        ('T' :: (encodeDigits 2 dt.hour ++
          (':' :: (encodeDigits 2 dt.minute ++
            (':' :: (encodeDigits 2 dt.second ++
              ('.' :: encodeDigits 6 dt.microsecond)))))))))))

/-- Model of `datetime_to_string` (`src/utils.py`):
`dt.strftime("%Y-%m-%dT%H:%M:%S.%f")`, each field zero padded to its
fixed width. -/
def datetime_to_string (dt : PyDateTime) : String :=
  String.mk (datetimeChars dt)

/-- Model of `datetime.strptime(s, fmt)` where `fmt` is
`"%Y-%m-%dT%H:%M:%S.%f"` (with `sep = 'T'`) or the legacy
`"%Y-%m-%d %H:%M:%S.%f"` (with `sep = ' '`): `%Y` is exactly 4 digits,
the other date/time fields are 1 or 2 digits, `%f` is 1 to 6 digits
zero padded on the right to microseconds; the whole string must be
consumed and the field ranges are those of the `datetime` constructor.
Returns `none` where Python raises `ValueError`. -/
def strptimeWithSep (sep : Char) (s : String) : Option PyDateTime := do
  let (y, _, cs) ← parseNum 4 4 s.data
  let cs ← expectChar '-' cs
  let (mo, _, cs) ← parseNum 1 2 cs
  let cs ← expectChar '-' cs
  let (d, _, cs) ← parseNum 1 2 cs
  let cs ← expectChar sep cs
  let (h, _, cs) ← parseNum 1 2 cs
  let cs ← expectChar ':' cs
  let (mi, _, cs) ← parseNum 1 2 cs
  let cs ← expectChar ':' cs
  let (sec, _, cs) ← parseNum 1 2 cs
  let cs ← expectChar '.' cs
  let (f, fcnt, cs) ← parseNum 1 6 cs
  if cs = [] then
    let dt : PyDateTime :=
      ⟨y, mo, d, h, mi, sec, f * 10 ^ (6 - fcnt)⟩
    if isValidDateTime dt then some dt else none
  else none

/-- Model of `string_to_datetime` (`src/utils.py`): try the canonical
format `_DATETIME_FORMAT`; on `ValueError` fall back to the legacy
`_OLD_DATETIME_FORMAT` (space instead of `T`). -/
def string_to_datetime (s : String) : Option PyDateTime :=
  match strptimeWithSep 'T' s with
  | some dt => some dt
  | none => strptimeWithSep ' ' s

/-- Days from the civil epoch 1970-01-01 of a (valid) Gregorian date,
the standard days-from-civil computation used to model
`datetime.timestamp()` with the naive datetime read as UTC. -/
def daysFromCivil (y m d : Nat) : Int :=
  let yy : Nat := if m ≤ 2 then y - 1 else y
  let era : Nat := yy / 400
  let yoe : Nat := yy % 400
  let mp : Nat := (m + 9) % 12
  let doy : Nat := (153 * mp + 2) / 5 + (d - 1)
  let doe : Nat := yoe * 365 + yoe / 4 - yoe / 100 + doy
  (↑(era * 146097 + doe) : Int) - 719468

/-- UTC epoch value of a datetime in microseconds.  The Python code
computes `int(dt.timestamp() * 1e6)` through floats; this models the
exact microsecond epoch value that expression denotes. -/
def toEpochMicroseconds (dt : PyDateTime) : Int :=
  daysFromCivil dt.year dt.month dt.day * 86400000000 +
    ((dt.hour * 3600 + dt.minute * 60 + dt.second) * 1000000 + dt.microsecond : Nat)

/-- Model of `string_to_timestamp_in_microseconds` (`src/utils.py`):
`int(string_to_datetime(s).timestamp() * 1e6)`; `none` where the parse
raises. -/
def string_to_timestamp_in_microseconds (s : String) : Option Int :=
  (string_to_datetime s).map toEpochMicroseconds

/-! ### The conversation window builder

Models `_make_messages` from `src/utils.py`: walk the transcript from
most recent to oldest, accumulating a running character-length total;
stop (Python `break`) as soon as the total would exceed 2048; reverse
back to chronological order and append the fixed system directive in
front.  The odd-length precondition is the Python `assert`; violating
it raises, modelled as `none`. -/

/-- A chat message: a `{"role": ..., "content": ...}` dictionary. -/
structure Message where
  role : String
  content : String
deriving DecidableEq, Repr

/-- The fixed system directive prepended to every window. -/
def systemMessage : Message :=
  ⟨"system", "You are a helpful assistant."⟩

/-- The accumulation loop of `_make_messages`, operating on the
reversed conversation (newest first) with the running length total and
the alternating role tag. -/
def buildReverseMessages : List String → String → Nat → List Message
  | [], _, _ => []
  | text :: rest, role, total_len =>
      if 2048 < total_len + text.length then []
      else ⟨role, text⟩ ::
        buildReverseMessages rest (if role = "user" then "assistant" else "user")
          (total_len + text.length)

/-- Model of `_make_messages` (`src/utils.py`).  Returns `none` where
the Python `assert` on odd length fires. -/
def _make_messages (conversation : List String) : Option (List Message) :=
  if conversation.length % 2 = 1 then
    some ((buildReverseMessages conversation.reverse "user" 0 ++
      [systemMessage]).reverse)
  else none

/-- Total content length of a message list. -/
def contentLen (ms : List Message) : Nat :=
  (ms.map fun m => m.content.length).sum

/-- Total character length of a list of strings. -/
def strLen (l : List String) : Nat :=
  (l.map String.length).sum

/-- Messages of a window other than the system directive. -/
def nonSystemMessages (ms : List Message) : List Message :=
  ms.filter fun m => m.role != "system"

/-- Alternating role tags, newest first, starting from `role`. -/
def altRoles (role : String) : Nat → List String
  | 0 => []
  | n + 1 => role :: altRoles (if role = "user" then "assistant" else "user") n

/-- A transcript message longer than the whole window budget. -/
def oversizedText : String := String.mk (List.replicate 2049 'a')

/-! ### Python `str.strip` and `int(str)`

The importance rater parses the completion gateway's reply with
Python's `int(...)` after `_get_gpt_answer` has stripped it.  Both are
modelled on ASCII text: `int(str)` strips whitespace, accepts an
optional single sign, then a nonempty digit sequence in which single
underscores may separate digits; anything else raises `ValueError`,
modelled as `none`. -/

/-- ASCII whitespace, as stripped by `str.strip` and `int(str)`. -/
def isPySpace (c : Char) : Bool :=
  c = ' ' || c = '\t' || c = '\n' || c = '\r' || c = '\x0b' || c = '\x0c'

/-- Leading and trailing whitespace removal on a character list. -/
def stripChars (l : List Char) : List Char :=
  ((l.dropWhile isPySpace).reverse.dropWhile isPySpace).reverse

/-- Model of Python `str.strip()` (ASCII whitespace). -/
def pyStrip (s : String) : String :=
  String.mk (stripChars s.data)

/-- Digit/underscore tail of an integer literal, given the accumulated
value of the digits already read. -/
def pyIntLoop : Nat → List Char → Option Nat
  | acc, [] => some acc
  | acc, c :: cs =>
      if c.isDigit then pyIntLoop (acc * 10 + (c.toNat - 48)) cs
      else if c = '_' then
        match cs with
        | [] => none
        | d :: cs' =>
            if d.isDigit then pyIntLoop (acc * 10 + (d.toNat - 48)) cs'
            else none
      else none

/-- Nonempty digit sequence (with optional single underscores between
digits) denoting a natural number. -/
def pyIntDigits : List Char → Option Nat
  | [] => none
  | c :: cs => if c.isDigit then pyIntLoop (c.toNat - 48) cs else none

/-- Model of Python `int(s)` for a string `s`: `none` where Python
raises `ValueError`. -/
def pyInt (s : String) : Option Int :=
  match stripChars s.data with
  | '+' :: rest => (pyIntDigits rest).map (fun n => (n : Int))
  | '-' :: rest => (pyIntDigits rest).map (fun n => -(n : Int))
  | rest => (pyIntDigits rest).map (fun n => (n : Int))

/-! ### The importance rater

Models `rate_importance` (`src/utils.py`): the rubric prompt is built
around the memory text, sent through `_make_messages`, and the
gateway's reply (an explicit parameter of the model) is stripped by
`_get_gpt_answer` and parsed by `int(...)`. -/

/-- Text of the rating rubric preceding the embedded memory text in the
f-string of `rate_importance`. -/
def ratingPromptPre : String :=
  "On the scale of 1 to 10, where 1 is purely unimportant (e.g., saying hello) and 10 is extremely important and useful (e.g., saving mankind), rate the likely importance of the following piece of memory (delimited by ```). Just give me the numeric rating and nothing else.\nMemory: ```"

/-- Text of the rating rubric following the embedded memory text. -/
def ratingPromptPost : String :=
  "```\nRating: <number>"

/-- The single-turn rubric prompt of `rate_importance` with the memory
text embedded. -/
def ratingPrompt (memory : String) : String :=
  ratingPromptPre ++ memory ++ ratingPromptPost

/-- The message list `rate_importance` sends to the completion gateway:
`_make_messages` applied to the one-element conversation holding the
rubric prompt. -/
def ratingMessages (memory : String) : Option (List Message) :=
  _make_messages [ratingPrompt memory]

/-- Post-processing `_get_gpt_answer` applies to the completion
gateway's raw reply content: `.strip()`. -/
def _get_gpt_answer (reply : String) : String :=
  pyStrip reply

/-- Model of `rate_importance` (`src/utils.py`) as a function of the
memory text and the completion gateway's raw reply: the stripped reply
is parsed with `int(...)`; `none` models the `ValueError` the spec
calls `MalformedRating`.  (The returned integer is not range checked by
the code.) -/
def rate_importance (memory reply : String) : Option Int :=
  pyInt (_get_gpt_answer reply)

/-! ### The memory store

Models the metadata content of the Pinecone index (namespace
`"memories"`): a keyed store from record id to the metadata written by
`update_memory` (`{time, importance, memory}`).  Embedding vectors are
opaque both to the code's own reads and to every claim, so they are
not carried.  Python exceptions surface as `Except` errors using the
spec's taxonomy names; the store component of each result is the store
as left behind (unchanged when the operation raised before its single
upsert call). -/

/-- Metadata stored with each vector by `update_memory`. -/
structure MetaData where
  time : Int
  importance : Int
  memory : String
deriving DecidableEq, Repr

/-- The metadata content of the vector index, keyed by record id. -/
abbrev Store := List (String × MetaData)

/-- Error taxonomy of the spec: `NotFound` (`KeyError`),
`InvalidArgument` (malformed id or the whitespace `assert`),
`MalformedRating` (non-integer rating reply). -/
inductive MemError where
  | NotFound
  | InvalidArgument
  | MalformedRating
deriving DecidableEq, Repr

/-- A memory record as returned by `get_memories`/`query_memory`. -/
structure Memory where
  id : String
  time : PyDateTime
  importance : Int
  text : String
deriving DecidableEq, Repr

/-- Keyed overwrite-or-insert, the semantics of the index `upsert`. -/
def storeUpsert (s : Store) (id : String) (md : MetaData) : Store :=
  (id, md) :: s.filter (fun e => e.1 != id)

/-- Keyed lookup, the semantics of the index `fetch` for one id
(`none` when the id is absent). -/
def storeFetch (s : Store) (id : String) : Option MetaData :=
  (s.find? (fun e => e.1 == id)).map (fun e => e.2)

/-- Model of `update_memory` (`src/utils.py`).  The metadata dictionary
evaluates `string_to_timestamp_in_microseconds(id)` first (raising
`ValueError` → `InvalidArgument` on a malformed id), then
`rate_importance` (raising → `MalformedRating`), and only then issues
the single `upsert` call; on a raise the store is unchanged. -/
def update_memory (s : Store) (id memory reply : String) :
    Store × Except MemError Unit :=
  match string_to_timestamp_in_microseconds id with
  | none => (s, Except.error MemError.InvalidArgument)
  | some t =>
      match rate_importance memory reply with
      | none => (s, Except.error MemError.MalformedRating)
      | some imp => (storeUpsert s id ⟨t, imp, memory⟩, Except.ok ())

/-- Model of `add_memory` (`src/utils.py`) with an explicit timestamp:
encode `utc_time` to an id, call `update_memory`, return the id. -/
def add_memory (s : Store) (memory : String) (utc_time : PyDateTime)
    (reply : String) : Store × Except MemError String :=
  let id := datetime_to_string utc_time
  let r := update_memory s id memory reply
  match r.2 with
  | Except.ok _ => (r.1, Except.ok id)
  | Except.error e => (r.1, Except.error e)

/-- The `assert " " not in id` check of `get_memories`: containment of
a space character. -/
def hasSpace (id : String) : Bool :=
  id.data.any (fun c => c == ' ')

/-- The result-building loop of `get_memories`: for each id in request
order, `vectors[id]` (`KeyError` → `NotFound` on an absent id), then
the record with `time = string_to_datetime(id)` (`ValueError` →
`InvalidArgument`). -/
def getMemoriesLoop (s : Store) : List String → Except MemError (List Memory)
  | [] => Except.ok []
  | id :: rest =>
      match storeFetch s id with
      | none => Except.error MemError.NotFound
      | some md =>
          match string_to_datetime id with
          | none => Except.error MemError.InvalidArgument
          | some t =>
              match getMemoriesLoop s rest with
              | Except.ok ms => Except.ok (⟨id, t, md.importance, md.memory⟩ :: ms)
              | Except.error e => Except.error e

/-- Model of `get_memories` (`src/utils.py`): first the `assert` that
no requested id contains a space (an `AssertionError`, the spec's
`InvalidArgument`), then the fetch and the result-building loop. -/
def get_memories (s : Store) (ids : List String) : Except MemError (List Memory) :=
  if ids.any hasSpace then Except.error MemError.InvalidArgument
  else getMemoriesLoop s ids

/-- Characters of the requested id that count as whitespace (used to
state C7, whose spec text says "whitespace"). -/
def containsWhitespace (id : String) : Bool :=
  id.data.any isPySpace

/-! ### The time filter of `query_memory`

The fragment of the Pinecone metadata filter language built by
`query_memory` over the `"time"` metadata key, with its satisfaction
semantics. -/

/-- A Pinecone metadata filter over the `"time"` key: `{"time": {"$gte": v}}`,
`{"time": {"$lt": v}}`, or `{"$and": [f, g]}`. -/
inductive PineconeFilter where
  | gte (value : Int)
  | lt (value : Int)
  | conj (left right : PineconeFilter)
deriving DecidableEq, Repr

/-- Satisfaction of a filter by a record's numeric `time` metadata. -/
def filterSat : PineconeFilter → Int → Bool
  | PineconeFilter.gte v, t => decide (v ≤ t)
  | PineconeFilter.lt v, t => decide (t < v)
  | PineconeFilter.conj f g, t => filterSat f t && filterSat g t

/-- Model of the filter-construction block of `query_memory`
(`src/utils.py`): an empty string means the bound is absent (Python
string truthiness); the outer `none` models the `ValueError` raised
when a given bound fails to parse; the inner `none` is "no filter". -/
def buildTimeFilter (start_time end_time : String) :
    Option (Option PineconeFilter) :=
  if start_time ≠ "" ∧ end_time ≠ "" then
    match string_to_timestamp_in_microseconds start_time with
    | none => none
    | some vs =>
        match string_to_timestamp_in_microseconds end_time with
        | none => none
        | some ve =>
            some (some (PineconeFilter.conj
              (PineconeFilter.gte vs) (PineconeFilter.lt ve)))
  else if start_time ≠ "" then
    match string_to_timestamp_in_microseconds start_time with
    | none => none
    | some vs => some (some (PineconeFilter.gte vs))
  else if end_time ≠ "" then
    match string_to_timestamp_in_microseconds end_time with
    | none => none
    | some ve => some (some (PineconeFilter.lt ve))
  else some none

/-! ### Theorems -/

/-! ### Round-trip of the timestamp codec -/

theorem digitChar_isDigit : ∀ n, n < 10 → (Nat.digitChar n).isDigit = true := by decide

theorem digitChar_toNat : ∀ n, n < 10 → (Nat.digitChar n).toNat - 48 = n := by decide

theorem digitChar_ne_space : ∀ n, n < 10 → Nat.digitChar n ≠ ' ' := by decide

theorem readDigits_encode (w : Nat) :
    ∀ (n acc cnt : Nat) (rest : List Char), n < 10 ^ w →
      readDigits w acc cnt (encodeDigits w n ++ rest) =
        (acc * 10 ^ w + n, cnt + w, rest) := by
  induction w with
  | zero =>
    intro n acc cnt rest hn
    have hn0 : n = 0 := by simpa using Nat.lt_one_iff.mp (by simpa using hn)
    simp [hn0, encodeDigits, readDigits]
  | succ w ih =>
    intro n acc cnt rest hn
    have hpow : 10 ^ (w + 1) = 10 ^ w * 10 := pow_succ 10 w
    have hd : n / 10 ^ w < 10 :=
      Nat.div_lt_of_lt_mul (by rw [← hpow]; exact hn)
    have hdig := digitChar_isDigit _ hd
    have hval := digitChar_toNat _ hd
    have hmod : n % 10 ^ w < 10 ^ w := Nat.mod_lt _ (Nat.pos_pow_of_pos w (by norm_num))
    simp only [encodeDigits, List.cons_append, readDigits, hdig, if_true, hval,
      List.append_eq]
    rw [ih (n % 10 ^ w) _ _ rest hmod]
    refine Prod.ext ?_ (Prod.ext ?_ rfl) <;> simp only []
    · have hdm := Nat.div_add_mod n (10 ^ w)
      calc (acc * 10 + n / 10 ^ w) * 10 ^ w + n % 10 ^ w
          = acc * (10 ^ w * 10) + (10 ^ w * (n / 10 ^ w) + n % 10 ^ w) := by ring
        _ = acc * 10 ^ (w + 1) + n := by rw [hdm, hpow]
    · omega

theorem parseNum_encode (minD w n : Nat) (rest : List Char)
    (hmin : minD ≤ w) (hn : n < 10 ^ w) :
    parseNum minD w (encodeDigits w n ++ rest) = some (n, w, rest) := by
  unfold parseNum
  rw [readDigits_encode w n 0 0 rest hn]
  simp [hmin]

theorem daysInMonth_le (y m : Nat) : daysInMonth y m ≤ 31 := by
  unfold daysInMonth
  split <;> [split <;> omega; (split <;> omega)]

/-- Fields of a valid datetime, each strictly below its rendering
width's bound. -/
theorem validDateTime_bounds (dt : PyDateTime) (h : isValidDateTime dt = true) :
    dt.year < 10 ^ 4 ∧ dt.month < 10 ^ 2 ∧ dt.day < 10 ^ 2 ∧
    dt.hour < 10 ^ 2 ∧ dt.minute < 10 ^ 2 ∧ dt.second < 10 ^ 2 ∧
    dt.microsecond < 10 ^ 6 := by
  have hdm := daysInMonth_le dt.year dt.month
  simp only [isValidDateTime, Bool.and_eq_true, decide_eq_true_eq] at h
  have h4 : (10 : Nat) ^ 4 = 10000 := by norm_num
  have h2 : (10 : Nat) ^ 2 = 100 := by norm_num
  have h6 : (10 : Nat) ^ 6 = 1000000 := by norm_num
  omega

set_option maxHeartbeats 1000000 in
/-- Scanning the canonical rendering of a valid datetime with the
canonical format recovers the datetime. -/
theorem strptime_datetimeChars (dt : PyDateTime) (h : isValidDateTime dt = true) :
    strptimeWithSep 'T' (datetime_to_string dt) = some dt := by
  obtain ⟨hy, hmo, hd, hh, hmi, hs, hf⟩ := validDateTime_bounds dt h
  have hdata : (datetime_to_string dt).data = datetimeChars dt := rfl
  rw [strptimeWithSep, hdata, datetimeChars]
  rw [parseNum_encode 4 4 dt.year _ (by norm_num) hy]
  simp only [Option.bind_eq_bind, Option.some_bind', expectChar, reduceIte]
  rw [parseNum_encode 1 2 dt.month _ (by norm_num) hmo]
  simp only [Option.bind_eq_bind, Option.some_bind', expectChar, reduceIte]
  rw [parseNum_encode 1 2 dt.day _ (by norm_num) hd]
  simp only [Option.bind_eq_bind, Option.some_bind', expectChar, reduceIte]
  rw [parseNum_encode 1 2 dt.hour _ (by norm_num) hh]
  simp only [Option.bind_eq_bind, Option.some_bind', expectChar, reduceIte]
  rw [parseNum_encode 1 2 dt.minute _ (by norm_num) hmi]
  simp only [Option.bind_eq_bind, Option.some_bind', expectChar, reduceIte]
  rw [parseNum_encode 1 2 dt.second _ (by norm_num) hs]
  simp only [Option.bind_eq_bind, Option.some_bind', expectChar, reduceIte]
  rw [show encodeDigits 6 dt.microsecond = encodeDigits 6 dt.microsecond ++ []
    from (List.append_nil _).symm]
  rw [parseNum_encode 1 6 dt.microsecond [] (by norm_num) hf]
  simp only [Option.bind_eq_bind, Option.some_bind', reduceIte]
  norm_num [h]

/-- Round-trip of the codec on every valid datetime. -/
theorem string_to_datetime_roundtrip (dt : PyDateTime)
    (h : isValidDateTime dt = true) :
    string_to_datetime (datetime_to_string dt) = some dt := by
  rw [string_to_datetime, strptime_datetimeChars dt h]

/-- C3: for every UTC instant `t` truncated to microsecond precision
(that is, every valid `datetime` value), decoding the canonical textual
encoding of `t` yields `t` back:
`string_to_datetime (datetime_to_string t) = t`. -/
theorem C3_encode_decode_roundtrip (dt : PyDateTime)
    (h : isValidDateTime dt = true) :
    string_to_datetime (datetime_to_string dt) = some dt :=
  string_to_datetime_roundtrip dt h

/-- Witness for C3 at the instant 2023-05-10T20:02:28.328142. -/
theorem C3_encode_decode_roundtrip_witness :
    isValidDateTime ⟨2023, 5, 10, 20, 2, 28, 328142⟩ = true ∧
    string_to_datetime (datetime_to_string ⟨2023, 5, 10, 20, 2, 28, 328142⟩) =
      some ⟨2023, 5, 10, 20, 2, 28, 328142⟩ :=
  ⟨by decide, C3_encode_decode_roundtrip ⟨2023, 5, 10, 20, 2, 28, 328142⟩ (by decide)⟩

/-- C9: decoding a timestamp string in the legacy format (space
separator) succeeds and yields the same instant as decoding the
canonical form: `string_to_datetime "2021-01-01 12:00:00.000000"`
equals `string_to_datetime "2021-01-01T12:00:00.000000"`, both being
the instant 2021-01-01 12:00:00.000000. -/
theorem C9_legacy_format_decode :
    string_to_datetime "2021-01-01 12:00:00.000000" =
      some ⟨2021, 1, 1, 12, 0, 0, 0⟩ ∧
    string_to_datetime "2021-01-01T12:00:00.000000" =
      some ⟨2021, 1, 1, 12, 0, 0, 0⟩ ∧
    string_to_datetime "2021-01-01 12:00:00.000000" =
      string_to_datetime "2021-01-01T12:00:00.000000" :=
  ⟨by decide, by decide, by decide⟩

/-! ### Lemmas about the accumulation loop -/

theorem buildReverse_budget (l : List String) :
    ∀ (role : String) (total : Nat), total ≤ 2048 →
      contentLen (buildReverseMessages l role total) + total ≤ 2048 := by
  induction l with
  | nil => intro role total h; simpa [buildReverseMessages, contentLen]
  | cons text rest ih =>
    intro role total h
    rw [buildReverseMessages]
    split
    · simpa [contentLen]
    · have hle : total + text.length ≤ 2048 := by omega
      have := ih (if role = "user" then "assistant" else "user")
        (total + text.length) hle
      simp only [contentLen, List.map_cons, List.sum_cons] at this ⊢
      omega

theorem buildReverse_length_le (l : List String) :
    ∀ (role : String) (total : Nat),
      (buildReverseMessages l role total).length ≤ l.length := by
  induction l with
  | nil => intro role total; simp [buildReverseMessages]
  | cons text rest ih =>
    intro role total
    rw [buildReverseMessages]
    split
    · simp
    · simpa using ih _ _

theorem buildReverse_cutoff (l : List String) :
    ∀ (role : String) (total : Nat),
      (buildReverseMessages l role total).length < l.length →
        2048 < total + strLen (l.take ((buildReverseMessages l role total).length + 1)) := by
  induction l with
  | nil => intro role total h; simp [buildReverseMessages] at h
  | cons text rest ih =>
    intro role total h
    rw [buildReverseMessages] at h ⊢
    by_cases hc : 2048 < total + text.length
    · simp only [if_pos hc, List.length_nil, List.take, strLen, List.map_cons,
        List.map_nil, List.sum_cons, List.sum_nil, List.take_zero] at *
      omega
    · simp only [if_neg hc, List.length_cons, Nat.add_lt_add_iff_right] at h
      have := ih (if role = "user" then "assistant" else "user")
        (total + text.length) h
      simp only [if_neg hc, List.length_cons, List.take, strLen, List.map_cons,
        List.sum_cons] at *
      omega

theorem buildReverse_contents (l : List String) :
    ∀ (role : String) (total : Nat),
      (buildReverseMessages l role total).map (fun m => m.content) =
        l.take (buildReverseMessages l role total).length := by
  induction l with
  | nil => intro role total; simp [buildReverseMessages]
  | cons text rest ih =>
    intro role total
    rw [buildReverseMessages]
    split
    · simp
    · simpa using ih _ _

theorem buildReverse_roles (l : List String) :
    ∀ (role : String) (total : Nat),
      (buildReverseMessages l role total).map (fun m => m.role) =
        altRoles role (buildReverseMessages l role total).length := by
  induction l with
  | nil => intro role total; simp [buildReverseMessages, altRoles]
  | cons text rest ih =>
    intro role total
    rw [buildReverseMessages]
    split
    · simp [altRoles]
    · simp only [List.map_cons, List.length_cons, altRoles]
      exact congrArg _ (ih _ _)

theorem altRoles_mem (n : Nat) :
    ∀ role, (role = "user" ∨ role = "assistant") →
      ∀ x ∈ altRoles role n, x = "user" ∨ x = "assistant" := by
  induction n with
  | zero => intro role _ x hx; simp [altRoles] at hx
  | succ n ih =>
    intro role hrole x hx
    rw [altRoles] at hx
    rcases List.mem_cons.mp hx with h | h
    · exact h ▸ hrole
    · refine ih _ ?_ x h
      rcases hrole with h' | h' <;> simp [h']

/-- The window built from an odd-length transcript is the reversed
accumulation with the system directive in front, and its non-system
part is exactly the reversed accumulation. -/
theorem make_messages_eq (conversation : List String)
    (h : conversation.length % 2 = 1) :
    _make_messages conversation =
      some (systemMessage ::
        (buildReverseMessages conversation.reverse "user" 0).reverse) ∧
    nonSystemMessages (systemMessage ::
        (buildReverseMessages conversation.reverse "user" 0).reverse) =
      (buildReverseMessages conversation.reverse "user" 0).reverse := by
  constructor
  · rw [_make_messages, if_pos h, List.reverse_append]
    rfl
  · rw [nonSystemMessages, List.filter_cons]
    have hsys : (systemMessage.role != "system") = false := by decide
    rw [hsys]
    simp only [Bool.false_eq_true, if_false]
    rw [List.filter_reverse, List.filter_eq_self.mpr]
    intro m hm
    have hrole : m.role ∈ altRoles "user"
        (buildReverseMessages conversation.reverse "user" 0).length := by
      rw [← buildReverse_roles]
      exact List.mem_map_of_mem _ hm
    rcases altRoles_mem _ "user" (Or.inl rfl) _ hrole with h' | h' <;>
      simp [h']

theorem take_reverse_eq_reverse_drop (l : List α) (k : Nat) (h : k ≤ l.length) :
    l.reverse.take k = (l.drop (l.length - k)).reverse := by
  conv_lhs => rw [← List.take_append_drop (l.length - k) l]
  rw [List.reverse_append]
  have hlen : (l.drop (l.length - k)).reverse.length = k := by
    simp only [List.length_reverse, List.length_drop]
    omega
  exact List.take_left' hlen

/-- C2: for every transcript satisfying the odd-length precondition,
the total character length of the non-system messages in the built
window is at most 2048, and if any transcript message was dropped, the
newest dropped message (position `k` from the end, where `k` messages
were retained) is such that including it would have made the running
total exceed 2048. -/
theorem C2_window_budget (conversation : List String) (msgs : List Message)
    (hm : _make_messages conversation = some msgs) :
    contentLen (nonSystemMessages msgs) ≤ 2048 ∧
    ((nonSystemMessages msgs).length < conversation.length →
      2048 < strLen (conversation.reverse.take
        ((nonSystemMessages msgs).length + 1))) := by
  have hodd : conversation.length % 2 = 1 := by
    by_contra hodd
    rw [_make_messages, if_neg hodd] at hm
    exact Option.noConfusion hm
  obtain ⟨he, hns⟩ := make_messages_eq conversation hodd
  rw [he] at hm
  obtain rfl := (Option.some.inj hm).symm
  rw [hns]
  have hlen : (buildReverseMessages conversation.reverse "user" 0).reverse.length =
      (buildReverseMessages conversation.reverse "user" 0).length :=
    List.length_reverse _
  constructor
  · have hbudget := buildReverse_budget conversation.reverse "user" 0 (by omega)
    have hrev : contentLen
        (buildReverseMessages conversation.reverse "user" 0).reverse =
        contentLen (buildReverseMessages conversation.reverse "user" 0) := by
      rw [contentLen, contentLen, List.map_reverse, List.sum_reverse]
    omega
  · intro hdrop
    rw [hlen] at hdrop ⊢
    have := buildReverse_cutoff conversation.reverse "user" 0
      (by simpa using hdrop)
    omega

/-- Witness for C2 on the transcript `["hi"]`. -/
theorem C2_window_budget_witness :
    contentLen (nonSystemMessages [systemMessage, ⟨"user", "hi"⟩]) ≤ 2048 ∧
    ((nonSystemMessages [systemMessage, ⟨"user", "hi"⟩]).length <
        (["hi"] : List String).length →
      2048 < strLen ((["hi"] : List String).reverse.take
        ((nonSystemMessages [systemMessage, ⟨"user", "hi"⟩]).length + 1))) :=
  C2_window_budget ["hi"] [systemMessage, ⟨"user", "hi"⟩] (by decide)

/-- C4 (amended): for every transcript of odd length, the built window
is one leading system directive followed by the retained transcript
suffix in chronological order; the retained messages' roles follow the
strictly alternating pattern whose newest element is "user"; and when
at least one transcript message is retained, the newest non-system
message has role "user". -/
theorem C4_window_roles (conversation : List String) (msgs : List Message)
    (hm : _make_messages conversation = some msgs) :
    ∃ rest : List Message,
      msgs = systemMessage :: rest ∧
      (∀ m ∈ rest, m.role = "user" ∨ m.role = "assistant") ∧
      rest.map (fun m => m.content) =
        conversation.drop (conversation.length - rest.length) ∧
      rest.map (fun m => m.role) = (altRoles "user" rest.length).reverse ∧
      (rest ≠ [] → ∃ m, rest.getLast? = some m ∧ m.role = "user") := by
  have hodd : conversation.length % 2 = 1 := by
    by_contra hodd
    rw [_make_messages, if_neg hodd] at hm
    exact Option.noConfusion hm
  obtain ⟨he, _⟩ := make_messages_eq conversation hodd
  rw [he] at hm
  obtain rfl := (Option.some.inj hm).symm
  refine ⟨(buildReverseMessages conversation.reverse "user" 0).reverse,
    rfl, ?_, ?_, ?_, ?_⟩
  · intro m hm'
    have hmem : m ∈ buildReverseMessages conversation.reverse "user" 0 :=
      List.mem_reverse.mp hm'
    have hrole : m.role ∈ altRoles "user"
        (buildReverseMessages conversation.reverse "user" 0).length := by
      rw [← buildReverse_roles]
      exact List.mem_map_of_mem _ hmem
    exact altRoles_mem _ "user" (Or.inl rfl) _ hrole
  · rw [List.length_reverse, List.map_reverse, buildReverse_contents,
      take_reverse_eq_reverse_drop _ _
        (le_trans (buildReverse_length_le _ _ _) (le_of_eq (List.length_reverse _))),
      List.reverse_reverse]
  · rw [List.length_reverse, List.map_reverse, buildReverse_roles]
  · intro hne
    have hcore : buildReverseMessages conversation.reverse "user" 0 ≠ [] := by
      intro h0
      exact hne (by rw [h0]; rfl)
    obtain ⟨c, cs, hcs⟩ := List.exists_cons_of_ne_nil hcore
    have hroles := buildReverse_roles conversation.reverse "user" 0
    rw [hcs] at hroles ⊢
    simp only [List.map_cons, List.length_cons, altRoles] at hroles
    refine ⟨c, ?_, (List.cons.injEq _ _ _ _).mp hroles |>.1⟩
    rw [List.getLast?_reverse]
    rfl

/-- Witness for C4 on the transcript `["hi"]`. -/
theorem C4_window_roles_witness :
    ∃ rest : List Message,
      ([systemMessage, ⟨"user", "hi"⟩] : List Message) = systemMessage :: rest ∧
      (∀ m ∈ rest, m.role = "user" ∨ m.role = "assistant") ∧
      rest.map (fun m => m.content) =
        (["hi"] : List String).drop ((["hi"] : List String).length - rest.length) ∧
      rest.map (fun m => m.role) = (altRoles "user" rest.length).reverse ∧
      (rest ≠ [] → ∃ m, rest.getLast? = some m ∧ m.role = "user") :=
  C4_window_roles ["hi"] [systemMessage, ⟨"user", "hi"⟩] (by decide)

/-- C4 counterexample: the odd-length transcript `[oversizedText]`
(2049 characters, newest message from the user) builds a window whose
only message is the system directive, so the window has no non-system
message at all — in particular no newest non-system message with role
"user", contrary to the claim as stated. -/
theorem C4_counterexample :
    ([oversizedText] : List String).length % 2 = 1 ∧
    _make_messages [oversizedText] = some [systemMessage] ∧
    nonSystemMessages [systemMessage] = [] := by
  have hlen : oversizedText.length = 2049 := by
    have h0 : oversizedText.length = (List.replicate 2049 'a').length := rfl
    rw [h0, List.length_replicate]
  refine ⟨rfl, ?_, by decide⟩
  rw [_make_messages, if_pos (by rfl), List.reverse_singleton,
    buildReverseMessages, if_pos (by rw [hlen]; norm_num)]
  rfl

/-! ### Stripping is idempotent, so the strip inside `int(...)` is
absorbed by the strip of `_get_gpt_answer` -/

theorem dropWhile_head_false (p : α → Bool) :
    ∀ (l : List α) (c : α), (l.dropWhile p).head? = some c → p c = false := by
  intro l
  induction l with
  | nil => intro c hc; simp [List.dropWhile] at hc
  | cons a l ih =>
    intro c hc
    rw [List.dropWhile_cons] at hc
    by_cases hp : p a
    · rw [if_pos hp] at hc
      exact ih c hc
    · rw [if_neg hp] at hc
      obtain rfl : a = c := by simpa using hc
      simpa using hp

theorem dropWhile_eq_self_of_head (p : α → Bool) (l : List α)
    (h : ∀ c, l.head? = some c → p c = false) : l.dropWhile p = l := by
  cases l with
  | nil => rfl
  | cons a l => rw [List.dropWhile_cons, if_neg (by simp [h a rfl])]

theorem getLast?_dropWhile (p : α → Bool) :
    ∀ l : List α, l.dropWhile p ≠ [] →
      (l.dropWhile p).getLast? = l.getLast? := by
  intro l
  induction l with
  | nil => intro h; simp [List.dropWhile] at h
  | cons a l ih =>
    intro h
    rw [List.dropWhile_cons] at h ⊢
    by_cases hp : p a
    · rw [if_pos hp] at h ⊢
      have hl : l ≠ [] := by
        intro h0
        rw [h0] at h
        exact h rfl
      obtain ⟨b, l', rfl⟩ := List.exists_cons_of_ne_nil hl
      rw [List.getLast?_cons_cons]
      exact ih h
    · rw [if_neg hp]

theorem stripChars_idem (l : List Char) :
    stripChars (stripChars l) = stripChars l := by
  have hstrip : stripChars l =
      ((l.dropWhile isPySpace).reverse.dropWhile isPySpace).reverse := rfl
  by_cases hBnil : (l.dropWhile isPySpace).reverse.dropWhile isPySpace = []
  · rw [hstrip, hBnil]
    rfl
  · rw [hstrip, stripChars]
    have h1 : ((l.dropWhile isPySpace).reverse.dropWhile
        isPySpace).reverse.dropWhile isPySpace =
        ((l.dropWhile isPySpace).reverse.dropWhile isPySpace).reverse := by
      apply dropWhile_eq_self_of_head
      intro c hc
      rw [List.head?_reverse, getLast?_dropWhile _ _ hBnil,
        List.getLast?_reverse] at hc
      exact dropWhile_head_false _ _ _ hc
    rw [h1, List.reverse_reverse,
      dropWhile_eq_self_of_head _ _ (fun c hc => dropWhile_head_false _ _ c hc)]

theorem pyInt_pyStrip (s : String) : pyInt (pyStrip s) = pyInt s := by
  have h : (pyStrip s).data = stripChars s.data := rfl
  simp only [pyInt]
  rw [h, stripChars_idem]

theorem rate_importance_eq_pyInt (memory reply : String) :
    rate_importance memory reply = pyInt reply := by
  rw [rate_importance, _get_gpt_answer, pyInt_pyStrip]

/-- C10: for every memory text, the importance rater builds its request
through the conversation-window builder, and the message list is the
system directive followed by the single rubric prompt — except that
when the rubric prompt exceeds 2048 characters the prompt is dropped by
the length cutoff and only the system directive remains. -/
theorem C10_rating_window (memory : String) :
    ratingMessages memory =
      some (if 2048 < (ratingPrompt memory).length then [systemMessage]
        else [systemMessage, ⟨"user", ratingPrompt memory⟩]) := by
  by_cases hc : 2048 < (ratingPrompt memory).length
  · rw [if_pos hc, ratingMessages, _make_messages, if_pos (by rfl),
      List.reverse_singleton, buildReverseMessages, if_pos (by omega)]
    rfl
  · rw [if_neg hc, ratingMessages, _make_messages, if_pos (by rfl),
      List.reverse_singleton, buildReverseMessages, if_neg (by omega),
      buildReverseMessages]
    rfl

/-- C5 counterexample: the reply `"42"` parses as an integer, and the
rater returns 42, which is not in the range `[1, 10]` — the code does
no range check, contrary to the claim as stated. -/
theorem C5_counterexample :
    rate_importance "x" "42" = some 42 ∧ ¬((1 : Int) ≤ 42 ∧ (42 : Int) ≤ 10) :=
  ⟨by decide, by decide⟩

/-- C5 (amended): for every text and every completion-gateway reply
that parses as an integer in the range `[1, 10]`, the importance rater
returns that integer, which lies in `[1, 10]`.  (The rater returns the
parsed integer unchecked, so the range holds exactly when the reply's
integer is in range.) -/
theorem C5_rating_range (memory reply : String) (i : Int)
    (hp : pyInt reply = some i) (h1 : 1 ≤ i) (h10 : i ≤ 10) :
    rate_importance memory reply = some i ∧ 1 ≤ i ∧ i ≤ 10 :=
  ⟨by rw [rate_importance_eq_pyInt, hp], h1, h10⟩

/-- Witness for C5 with reply `"7"`. -/
theorem C5_rating_range_witness :
    rate_importance "hello" "7" = some 7 ∧ (1 : Int) ≤ 7 ∧ (7 : Int) ≤ 10 :=
  C5_rating_range "hello" "7" 7 (by decide) (by decide) (by decide)

/-- C6: the importance rater fails (with the error the spec calls
`MalformedRating`) exactly when the gateway's reply is not parseable as
an integer; on such a failure `update_memory` raises before its upsert,
leaving the store unchanged; a reply of `"7"` yields importance 7 and a
reply of `"seven"` fails. -/
theorem C6_malformed_rating (memory reply : String) :
    (rate_importance memory reply = none ↔ pyInt reply = none) ∧
    (∀ (s : Store) (id : String) (t : Int),
      string_to_timestamp_in_microseconds id = some t →
      rate_importance memory reply = none →
      update_memory s id memory reply = (s, Except.error MemError.MalformedRating)) ∧
    rate_importance memory "7" = some 7 ∧
    rate_importance memory "seven" = none := by
  refine ⟨?_, ?_, ?_, ?_⟩
  · rw [rate_importance_eq_pyInt]
  · intro s id t hid hnone
    simp only [update_memory, hid, hnone]
  · rw [rate_importance_eq_pyInt]
    decide
  · rw [rate_importance_eq_pyInt]
    decide

/-- Witness for C6 with the unparseable reply `"oops"`. -/
theorem C6_malformed_rating_witness :
    (rate_importance "m" "oops" = none ↔ pyInt "oops" = none) ∧
    update_memory [] "1970-01-01T00:00:00.000001" "m" "oops" =
      ([], Except.error MemError.MalformedRating) ∧
    rate_importance "m" "7" = some 7 ∧
    rate_importance "m" "seven" = none := by
  have h := C6_malformed_rating "m" "oops"
  exact ⟨h.1, h.2.1 [] "1970-01-01T00:00:00.000001" 1 (by decide) (by decide),
    h.2.2.1, h.2.2.2⟩

/-! ### The time filter of `query_memory` -/

theorem sttm_ne_empty {s : String} {v : Int}
    (h : string_to_timestamp_in_microseconds s = some v) : s ≠ "" := by
  intro h0
  have h2 : string_to_timestamp_in_microseconds "" = none := rfl
  rw [h0, h2] at h
  exact Option.noConfusion h

/-- C1 (amended): when both bounds parse, the filter is the conjunction
of `time ≥ start` and `time < end` (half-open), a record whose time
equals `end` is excluded, and — provided `start < end` — a record whose
time equals `start` is included; with only one bound the filter is that
single comparison; with neither bound no filter is built. -/
theorem C1_time_filter (s e : String) (vs ve : Int)
    (hs : string_to_timestamp_in_microseconds s = some vs)
    (he : string_to_timestamp_in_microseconds e = some ve) :
    buildTimeFilter s e = some (some (PineconeFilter.conj
      (PineconeFilter.gte vs) (PineconeFilter.lt ve))) ∧
    (∀ t : Int, filterSat (PineconeFilter.conj
      (PineconeFilter.gte vs) (PineconeFilter.lt ve)) t = true ↔ vs ≤ t ∧ t < ve) ∧
    filterSat (PineconeFilter.conj
      (PineconeFilter.gte vs) (PineconeFilter.lt ve)) ve = false ∧
    (vs < ve → filterSat (PineconeFilter.conj
      (PineconeFilter.gte vs) (PineconeFilter.lt ve)) vs = true) ∧
    buildTimeFilter s "" = some (some (PineconeFilter.gte vs)) ∧
    (∀ t : Int, filterSat (PineconeFilter.gte vs) t = true ↔ vs ≤ t) ∧
    buildTimeFilter "" e = some (some (PineconeFilter.lt ve)) ∧
    (∀ t : Int, filterSat (PineconeFilter.lt ve) t = true ↔ t < ve) ∧
    buildTimeFilter "" "" = some none := by
  have hsne : s ≠ "" := sttm_ne_empty hs
  have hene : e ≠ "" := sttm_ne_empty he
  refine ⟨?_, ?_, ?_, ?_, ?_, ?_, ?_, ?_, rfl⟩
  · rw [buildTimeFilter, if_pos ⟨hsne, hene⟩, hs, he]
  · intro t
    simp [filterSat, Bool.and_eq_true, decide_eq_true_eq]
  · simp [filterSat, lt_irrefl]
  · intro hlt
    simp [filterSat, le_refl, hlt]
  · rw [buildTimeFilter, if_neg (by simp), if_pos hsne, hs]
  · intro t
    simp [filterSat, decide_eq_true_eq]
  · rw [buildTimeFilter, if_neg (by simp), if_neg (by simp), if_pos hene, he]
  · intro t
    simp [filterSat, decide_eq_true_eq]

/-- C1 counterexample: with both bounds given and equal
(`start_time = end_time`), the filter is the conjunction over the empty
half-open interval, and a record whose time equals `start_time` is
excluded — the claim's unconditional "a record whose time equals
start_time is included" fails in this degenerate case. -/
theorem C1_counterexample :
    buildTimeFilter "1970-01-01T00:00:00.000001" "1970-01-01T00:00:00.000001" =
      some (some (PineconeFilter.conj
        (PineconeFilter.gte 1) (PineconeFilter.lt 1))) ∧
    filterSat (PineconeFilter.conj
      (PineconeFilter.gte 1) (PineconeFilter.lt 1)) 1 = false :=
  ⟨by decide, by decide⟩

/-- Witness for C1 on the bounds 1970-01-01T00:00:00.000001 (epoch
value 1) and 1970-01-02T00:00:00.000000 (epoch value 86400000000). -/
theorem C1_time_filter_witness :
    buildTimeFilter "1970-01-01T00:00:00.000001" "1970-01-02T00:00:00.000000" =
      some (some (PineconeFilter.conj
        (PineconeFilter.gte 1) (PineconeFilter.lt 86400000000))) ∧
    filterSat (PineconeFilter.conj
      (PineconeFilter.gte 1) (PineconeFilter.lt 86400000000)) 86400000000 = false ∧
    filterSat (PineconeFilter.conj
      (PineconeFilter.gte 1) (PineconeFilter.lt 86400000000)) 1 = true := by
  have h := C1_time_filter "1970-01-01T00:00:00.000001"
    "1970-01-02T00:00:00.000000" 1 86400000000 (by decide) (by decide)
  exact ⟨h.1, h.2.2.1, h.2.2.2.1 (by decide)⟩

/-! ### `get_memories` -/

theorem getMemoriesLoop_ok (s : Store) :
    ∀ ids : List String,
      (∀ id ∈ ids, ∃ md, storeFetch s id = some md) →
      (∀ id ∈ ids, ∃ t, string_to_datetime id = some t) →
      ∃ ms, getMemoriesLoop s ids = Except.ok ms ∧
        List.Forall₂ (fun (id : String) (m : Memory) =>
          m.id = id ∧
          ∃ md, storeFetch s id = some md ∧ m.importance = md.importance ∧
            m.text = md.memory ∧ string_to_datetime id = some m.time) ids ms := by
  intro ids
  induction ids with
  | nil => intro _ _; exact ⟨[], rfl, List.Forall₂.nil⟩
  | cons id rest ih =>
    intro hpres hparse
    obtain ⟨md, hmd⟩ := hpres id (List.mem_cons_self id rest)
    obtain ⟨t, ht⟩ := hparse id (List.mem_cons_self id rest)
    obtain ⟨ms, hms, hfa⟩ := ih (fun i hi => hpres i (List.mem_cons_of_mem _ hi))
      (fun i hi => hparse i (List.mem_cons_of_mem _ hi))
    refine ⟨⟨id, t, md.importance, md.memory⟩ :: ms, ?_, ?_⟩
    · rw [getMemoriesLoop, hmd, ht, hms]
    · exact List.Forall₂.cons ⟨rfl, md, hmd, rfl, rfl, ht⟩ hfa

theorem getMemoriesLoop_notFound (s : Store) :
    ∀ ids : List String,
      (∃ id ∈ ids, storeFetch s id = none) →
      (∀ id ∈ ids, (∃ md, storeFetch s id = some md) →
        string_to_datetime id ≠ none) →
      getMemoriesLoop s ids = Except.error MemError.NotFound := by
  intro ids
  induction ids with
  | nil =>
    rintro ⟨id, hid, _⟩ _
    simp at hid
  | cons id rest ih =>
    rintro ⟨i, hi, hnone⟩ hparse
    rcases List.mem_cons.mp hi with rfl | hi'
    · rw [getMemoriesLoop, hnone]
    · cases hfetch : storeFetch s id with
      | none => rw [getMemoriesLoop, hfetch]
      | some md =>
        have hp := hparse id (List.mem_cons_self id rest) ⟨md, hfetch⟩
        cases ht : string_to_datetime id with
        | none => exact absurd ht hp
        | some t =>
          rw [getMemoriesLoop, hfetch, ht,
            ih ⟨i, hi', hnone⟩ (fun j hj => hparse j (List.mem_cons_of_mem _ hj))]

/-- C7 (amended): `get_memories` fails with `InvalidArgument` when any
requested id contains a space character (only the space character is
checked, not all whitespace); when no id has a space, every id is
present and every id decodes, it returns the records in request order;
when no id has a space and some id is absent (the present ones
decoding), it fails with `NotFound`. -/
theorem C7_get_memories (s : Store) (ids : List String) :
    (ids.any hasSpace = true →
      get_memories s ids = Except.error MemError.InvalidArgument) ∧
    (ids.any hasSpace = false →
      (∀ id ∈ ids, ∃ md, storeFetch s id = some md) →
      (∀ id ∈ ids, ∃ t, string_to_datetime id = some t) →
      ∃ ms, get_memories s ids = Except.ok ms ∧
        List.Forall₂ (fun (id : String) (m : Memory) =>
          m.id = id ∧
          ∃ md, storeFetch s id = some md ∧ m.importance = md.importance ∧
            m.text = md.memory ∧ string_to_datetime id = some m.time) ids ms) ∧
    (ids.any hasSpace = false →
      (∃ id ∈ ids, storeFetch s id = none) →
      (∀ id ∈ ids, (∃ md, storeFetch s id = some md) →
        string_to_datetime id ≠ none) →
      get_memories s ids = Except.error MemError.NotFound) := by
  refine ⟨?_, ?_, ?_⟩
  · intro h
    rw [get_memories, if_pos h]
  · intro h hpres hparse
    obtain ⟨ms, hms, hfa⟩ := getMemoriesLoop_ok s ids hpres hparse
    refine ⟨ms, ?_, hfa⟩
    rw [get_memories, if_neg (by simp [h])]
    exact hms
  · intro h habs hparse
    rw [get_memories, if_neg (by simp [h]),
      getMemoriesLoop_notFound s ids habs hparse]

/-- C7 counterexample: the id `"a\tb"` contains whitespace (a tab), yet
`get_memories` does not fail with `InvalidArgument` — the code's
`assert` checks only the space character, so the lookup proceeds and
fails with `NotFound` instead. -/
theorem C7_counterexample :
    containsWhitespace "a\tb" = true ∧
    get_memories [] ["a\tb"] = Except.error MemError.NotFound ∧
    MemError.NotFound ≠ MemError.InvalidArgument :=
  ⟨by decide, rfl, by decide⟩

/-- Witness for C7: a spaced id is rejected, a present id is returned
in order, an absent id gives `NotFound`. -/
theorem C7_get_memories_witness :
    get_memories [("1970-01-01T00:00:00.000001", ⟨1, 7, "hello"⟩)] ["a b"] =
      Except.error MemError.InvalidArgument ∧
    (∃ ms, get_memories [("1970-01-01T00:00:00.000001", ⟨1, 7, "hello"⟩)]
        ["1970-01-01T00:00:00.000001"] = Except.ok ms ∧
      List.Forall₂ (fun (id : String) (m : Memory) =>
        m.id = id ∧
        ∃ md, storeFetch [("1970-01-01T00:00:00.000001", ⟨1, 7, "hello"⟩)] id =
            some md ∧
          m.importance = md.importance ∧ m.text = md.memory ∧
          string_to_datetime id = some m.time)
        ["1970-01-01T00:00:00.000001"] ms) ∧
    get_memories [("1970-01-01T00:00:00.000001", ⟨1, 7, "hello"⟩)]
      ["2525-01-01T00:00:00.000000"] = Except.error MemError.NotFound := by
  refine ⟨(C7_get_memories _ ["a b"]).1 (by decide),
    (C7_get_memories _ _).2.1 (by decide) ?_ ?_,
    (C7_get_memories _ _).2.2 (by decide) ⟨"2525-01-01T00:00:00.000000",
      by decide, by decide⟩ ?_⟩
  · intro id hid
    obtain rfl := List.mem_singleton.mp hid
    exact ⟨⟨1, 7, "hello"⟩, by decide⟩
  · intro id hid
    obtain rfl := List.mem_singleton.mp hid
    exact ⟨⟨1970, 1, 1, 0, 0, 0, 1⟩, by decide⟩
  · intro id hid hpres
    obtain rfl := List.mem_singleton.mp hid
    decide

/-! ### `add_memory` followed by `get_memories` -/

theorem encodeDigits_ne_space (w : Nat) :
    ∀ n, n < 10 ^ w → ∀ c ∈ encodeDigits w n, c ≠ ' ' := by
  induction w with
  | zero =>
    intro n _ c hc
    simp [encodeDigits] at hc
  | succ w ih =>
    intro n hn c hc
    rw [encodeDigits] at hc
    rcases List.mem_cons.mp hc with rfl | hc'
    · exact digitChar_ne_space _ (Nat.div_lt_of_lt_mul (by rw [← pow_succ]; exact hn))
    · exact ih (n % 10 ^ w) (Nat.mod_lt _ (Nat.pos_pow_of_pos _ (by norm_num))) c hc'

theorem datetimeChars_ne_space (dt : PyDateTime) (h : isValidDateTime dt = true) :
    ∀ c ∈ datetimeChars dt, c ≠ ' ' := by
  obtain ⟨hy, hmo, hd, hh, hmi, hsec, hf⟩ := validDateTime_bounds dt h
  intro c hc
  rw [datetimeChars] at hc
  simp only [List.mem_append, List.mem_cons] at hc
  rcases hc with hc | rfl | hc | rfl | hc | rfl | hc | rfl | hc | rfl | hc | rfl | hc
  · exact encodeDigits_ne_space 4 _ hy c hc
  · decide
  · exact encodeDigits_ne_space 2 _ hmo c hc
  · decide
  · exact encodeDigits_ne_space 2 _ hd c hc
  · decide
  · exact encodeDigits_ne_space 2 _ hh c hc
  · decide
  · exact encodeDigits_ne_space 2 _ hmi c hc
  · decide
  · exact encodeDigits_ne_space 2 _ hsec c hc
  · decide
  · exact encodeDigits_ne_space 6 _ hf c hc

theorem datetime_to_string_no_space (dt : PyDateTime)
    (h : isValidDateTime dt = true) :
    hasSpace (datetime_to_string dt) = false := by
  rw [hasSpace, List.any_eq_false]
  intro c hc
  simp only [beq_iff_eq]
  exact datetimeChars_ne_space dt h c hc

theorem storeFetch_upsert (s : Store) (id : String) (md : MetaData) :
    storeFetch (storeUpsert s id md) id = some md := by
  rw [storeFetch, storeUpsert, List.find?_cons_of_pos]
  · rfl
  · exact beq_self_eq_true id

/-- C8: for every text, valid instant `t` and integer-parsing rating
reply, `add_memory` returns exactly the canonical encoding of `t` as
the new record's id, and a subsequent `get_memories` of that id yields
a record whose text equals the added text (and whose decoded time is
`t`). -/
theorem C8_add_get (s : Store) (memory : String) (t : PyDateTime)
    (reply : String) (imp : Int)
    (hv : isValidDateTime t = true) (hr : pyInt reply = some imp) :
    (add_memory s memory t reply).2 = Except.ok (datetime_to_string t) ∧
    get_memories (add_memory s memory t reply).1 [datetime_to_string t] =
      Except.ok [⟨datetime_to_string t, t, imp, memory⟩] := by
  have hid : string_to_timestamp_in_microseconds (datetime_to_string t) =
      some (toEpochMicroseconds t) := by
    rw [string_to_timestamp_in_microseconds, string_to_datetime_roundtrip t hv]
    rfl
  have hrate : rate_importance memory reply = some imp := by
    rw [rate_importance_eq_pyInt, hr]
  have hupd : update_memory s (datetime_to_string t) memory reply =
      (storeUpsert s (datetime_to_string t)
        ⟨toEpochMicroseconds t, imp, memory⟩, Except.ok ()) := by
    simp only [update_memory, hid, hrate]
  have hadd : add_memory s memory t reply =
      (storeUpsert s (datetime_to_string t)
        ⟨toEpochMicroseconds t, imp, memory⟩,
        Except.ok (datetime_to_string t)) := by
    simp only [add_memory, hupd]
  rw [hadd]
  refine ⟨rfl, ?_⟩
  rw [get_memories, if_neg (by simp [datetime_to_string_no_space t hv]),
    getMemoriesLoop, storeFetch_upsert, string_to_datetime_roundtrip t hv,
    getMemoriesLoop]

/-- Witness for C8: `add_memory` of `"hello"` at
2023-05-10T20:02:28.328142 (rating reply `"7"`) returns that exact id,
and `get_memories` of it returns a record with text `"hello"`. -/
theorem C8_add_get_witness :
    (add_memory [] "hello" ⟨2023, 5, 10, 20, 2, 28, 328142⟩ "7").2 =
      Except.ok "2023-05-10T20:02:28.328142" ∧
    get_memories (add_memory [] "hello" ⟨2023, 5, 10, 20, 2, 28, 328142⟩ "7").1
      ["2023-05-10T20:02:28.328142"] =
      Except.ok [⟨"2023-05-10T20:02:28.328142",
        ⟨2023, 5, 10, 20, 2, 28, 328142⟩, 7, "hello"⟩] := by
  have hid : datetime_to_string ⟨2023, 5, 10, 20, 2, 28, 328142⟩ =
      "2023-05-10T20:02:28.328142" := by decide
  have h := C8_add_get [] "hello" ⟨2023, 5, 10, 20, 2, 28, 328142⟩ "7" 7
    (by decide) (by decide)
  rw [hid] at h
  exact h

end ChatGptMem
